import Mathlib

/-!
Verification of the xpra packet-protocol / legacy RFB codec specification
against the repository source.

The pure byte-level codecs (`xpra/server/rfb/rfb_encode.py`,
`xpra/util/str_fn.py`) are embedded directly from the source.  Components
whose code is not part of the supplied subset (the subprocess bridge, the
packet protocol engine, the network-state mixin) are modelled from the
specification text; the corresponding definitions carry a
`Modelled from the spec:` doc comment saying what is missing.
-/

set_option autoImplicit false

namespace Xpra

/-! ## Byte-level packing primitives (Python `struct.pack`)

Bytes are modelled as natural numbers below 256.  Python `struct.pack`
raises `struct.error` on an out-of-range argument; the embeddings below
reduce modulo the field size, and every theorem about them carries the
in-range hypotheses under which the reduction is the identity. -/

/-- Big-endian unsigned 16-bit field (`struct.pack("!H", n)`). -/
def u16be (n : Nat) : List Nat :=
  [n / 256 % 256, n % 256]

/-- Big-endian signed 32-bit field (`struct.pack("!i", n)`), two's complement. -/
def i32be (n : Int) : List Nat :=
  let m := (n % 4294967296).toNat
  [m / 16777216 % 256, m / 65536 % 256, m / 256 % 256, m % 256]

/-- `struct.pack(b"!BBH", a, b, c)`: two bytes then a big-endian u16. -/
def pack_BBH (a b c : Nat) : List Nat :=
  [a % 256, b % 256] ++ u16be c

/-- `struct.pack(b"!HHHHi", x, y, w, h, e)`. -/
def pack_HHHHi (x y w h : Nat) (e : Int) : List Nat :=
  u16be x ++ u16be y ++ u16be w ++ u16be h ++ i32be e

/-! ## RFB encoding constants

`rfb_const.py` is not part of the supplied sources. -/

/-- Modelled from the spec: `RFBEncoding.RAW`, the RAW encoding id
(`rfb_const.py` is missing; the spec only requires the RAW id and the
compressed-image id to be distinguished constants). -/
def RFBEncoding_RAW : Int := 0

/-- Modelled from the spec: `RFBEncoding.TIGHT`, the compressed-image
encoding id (`rfb_const.py` is missing; the spec only requires it to be
distinct from the RAW id). -/
def RFBEncoding_TIGHT : Int := 7

/-- Modelled from the spec: `PACKET_JOIN_SIZE` (`xpra/net/protocol` is
missing), the single shared chunk-join threshold bounding when a payload
is emitted as one combined chunk rather than header + raw-data chunks. -/
def PACKET_JOIN_SIZE : Nat := 16384

/-! ## `rfb_encode.make_header` (source: `xpra/server/rfb/rfb_encode.py`) -/

/-- `make_header(encoding, x, y, w, h)`:
`struct.pack(b"!BBH", 0, 0, 1) + struct.pack(b"!HHHHi", x, y, w, h, encoding)`. -/
def make_header (encoding : Int) (x y w h : Nat) : List Nat :=
  pack_BBH 0 0 1 ++ pack_HHHHi x y w h encoding

/-- The header layout as claim C5 words it: the update count (uint16 BE)
first, with nothing before it, then x, y, w, h, then the encoding id. -/
def claimed_header_C5 (encoding : Int) (x y w h : Nat) : List Nat :=
  u16be 1 ++ u16be x ++ u16be y ++ u16be w ++ u16be h ++ i32be encoding

/-! ## Window and image model

`rfb_encode.py` consumes a window object (`get_image`,
`acknowledge_changes`) and an image object (`get_rowstride`, `restride`,
`get_pixels`) whose classes are outside the supplied sources; they are
external collaborators of the codec.  The image's pixel buffer is a byte
list, the window supplies an optional image per requested rectangle and
records whether its pending changes were acknowledged. -/

structure ImageModel where
  rowstride : Nat
  pixels : List Nat
  deriving Repr, DecidableEq

/-- Modelled from the spec: the image wrapper's `restride(stride)`
(its class is missing from the sources) re-strides the pixel buffer so
each row occupies exactly `stride` bytes, cropping rows that are longer. -/
def ImageModel.restride (img : ImageModel) (stride : Nat) : ImageModel :=
  { rowstride := stride
    pixels := ((img.pixels.toChunks img.rowstride).map (List.take stride)).flatten }

structure WindowModel where
  /-- `window.get_image(x, y, w, h)`: the image for the rectangle, if any. -/
  get_image : Nat → Nat → Nat → Nat → Option ImageModel
  /-- Whether `window.acknowledge_changes()` has been called. -/
  changes_acknowledged : Bool

def acknowledge_changes (window : WindowModel) : WindowModel :=
  { window with changes_acknowledged := true }

/-- Outcome of a legacy rect encoder run: no image for the rectangle
(Python returns `None`), a failed `assert`, or a list of chunks. -/
inductive EncodeResult where
  | noImage
  | assertionFailure
  | chunks (cs : List (List Nat))
  deriving Repr, DecidableEq

/-! ## `rfb_encode.raw_encode` -/

/-- `raw_encode(window, x, y, w, h)` from `rfb_encode.py`, with the
window's `acknowledge_changes` side effect made explicit by returning the
updated window alongside the result. -/
def raw_encode (window : WindowModel) (x y w h : Nat) :
    WindowModel × EncodeResult :=
  let img0 := window.get_image x y w h
  let window := acknowledge_changes window
  match img0 with
  | none => (window, .noImage)
  | some img =>
    let img := if img.rowstride ≠ w * 4 then img.restride (w * 4) else img
    let pixels := img.pixels
    if 4 * w * h ≤ pixels.length then
      let data := pixels.take (4 * w * h)
      let header := make_header RFBEncoding_RAW x y w h
      if data.length ≤ PACKET_JOIN_SIZE then
        (window, .chunks [header ++ data])
      else
        (window, .chunks [header, data])
    else
      (window, .assertionFailure)

/-! ## `rfb_encode.tight_encode` -/

/-- The variable-length payload-length prefix of the TIGHT path
(`rfb_encode.py` lines 46-53); `none` models the `assert length<4194303`
failing. -/
def tight_length_field (length : Nat) : Option (List Nat) :=
  if length < 128 then
    some [length]
  else if length < 16383 then
    some [0x80 + (length &&& 0x7F), length >>> 7]
  else if length < 4194303 then
    some [0x80 + (length &&& 0x7F), 0x80 + ((length >>> 7) &&& 0x7F), length >>> 14]
  else
    none

/-- `tight_encode(window, x, y, w, h)` from `rfb_encode.py`.  The external
pillow encoder (`xpra.codecs.pillow.encoder.encode`, an opaque
collaborator) is passed in as `jpeg`, giving the compressed bytes for an
image. -/
def tight_encode (jpeg : ImageModel → List Nat) (window : WindowModel)
    (x y w h : Nat) : WindowModel × EncodeResult :=
  let img0 := window.get_image x y w h
  let window := acknowledge_changes window
  match img0 with
  | none => (window, .noImage)
  | some img =>
    let data := jpeg img
    let header0 := make_header RFBEncoding_TIGHT x y w h ++ [(0x80 + 0x1F) % 256]
    match tight_length_field data.length with
    | none => (window, .assertionFailure)
    | some lenBytes =>
      let header := header0 ++ lenBytes
      if data.length ≤ PACKET_JOIN_SIZE then
        (window, .chunks [header ++ data])
      else
        (window, .chunks [header, data])

/-! ## String / byte conversions (source: `xpra/util/str_fn.py`)

A Python `str` is a sequence of unicode code points, modelled as
`List Nat`; a Python `bytes` is modelled as `List (Fin 256)`. -/

/-- `bytes.decode("latin1")`: each byte becomes the code point of the
same value. -/
def latin1Decode (b : List (Fin 256)) : List Nat :=
  b.map Fin.val

/-- `str.encode("latin1")`: succeeds iff every code point is below 256,
raising `UnicodeEncodeError` (`none`) otherwise. -/
def latin1Encode : List Nat → Option (List (Fin 256))
  | [] => some []
  | c :: t =>
    if h : c < 256 then (latin1Encode t).map (⟨c, h⟩ :: ·) else none

/-- UTF-8 encoding of one code point. -/
def utf8EncodeChar (c : Nat) : List (Fin 256) :=
  if c < 128 then
    [⟨c % 256, by omega⟩]
  else if c < 2048 then
    [⟨192 + c / 64 % 32, by omega⟩, ⟨128 + c % 64, by omega⟩]
  else if c < 65536 then
    [⟨224 + c / 4096 % 16, by omega⟩, ⟨128 + c / 64 % 64, by omega⟩,
     ⟨128 + c % 64, by omega⟩]
  else
    [⟨240 + c / 262144 % 8, by omega⟩, ⟨128 + c / 4096 % 64, by omega⟩,
     ⟨128 + c / 64 % 64, by omega⟩, ⟨128 + c % 64, by omega⟩]

/-- `str.encode("utf8")`. -/
def utf8Encode (s : List Nat) : List (Fin 256) :=
  (s.map utf8EncodeChar).flatten

/-- `bytestostr(x)` from `str_fn.py`, on a bytes input: decode as
latin1.  (On non-bytes input the source applies `str(x)`; only the bytes
branch is relevant to byte/string round trips.) -/
def bytestostr (b : List (Fin 256)) : List Nat :=
  latin1Decode b

/-- `strtobytes(x)` from `str_fn.py`, on a `str` input: try latin1, and
fall back to utf8 on `UnicodeEncodeError`.  (On a bytes input the source
returns it unchanged; that branch is the identity and is not needed
here.) -/
def strtobytes (s : List Nat) : List (Fin 256) :=
  match latin1Encode s with
  | some b => b
  | none => utf8Encode s

/-! ## `repr_ellipsized` (source: `xpra/util/str_fn.py`)

Only the `str` branch of `repr_ellipsized` is embedded (the claim is
about text strings); the bytes branch first applies `repr`. -/

/-- One `str.replace(c, r)` pass over the code points. -/
def replaceChar (c : Nat) (r : List Nat) (s : List Nat) : List Nat :=
  (s.map fun a => if a = c then r else [a]).flatten

/-- `nonl(x)` from `str_fn.py`: empty (falsy) strings map to `""`,
otherwise `"\n"` is replaced by `"\\n"` and then `"\r"` by `"\\r"`. -/
def nonl (x : List Nat) : List Nat :=
  if x.isEmpty then [] else replaceChar 13 [92, 114] (replaceChar 10 [92, 110] x)

/-- Python slice `s[i:]` with an `int` index: a negative index counts
from the end, clamped to the start of the string. -/
def pySliceFrom (s : List Nat) (i : Int) : List Nat :=
  if 0 ≤ i then s.drop i.toNat else s.drop (s.length - (-i).toNat)

/-- `repr_ellipsized(obj, limit)` from `str_fn.py`, `str` branch:
`nonl(obj[:limit // 2 - 2] + " .. " + obj[2 - limit // 2:])` when
`len(obj) > limit > 6`, else `nonl(obj)`.  The code points of `" .. "`
are `[32, 46, 46, 32]`. -/
def repr_ellipsized (obj : List Nat) (limit : Nat) : List Nat :=
  if obj.length > limit ∧ limit > 6 then
    nonl (obj.take (limit / 2 - 2) ++ [32, 46, 46, 32] ++
      pySliceFrom obj (2 - (limit : Int) / 2))
  else
    nonl obj

/-! ## Python argument values

Packet arguments as seen by the packet handlers: the payload kinds the
spec's validation properties enumerate. -/

inductive PyValue where
  | none
  | int (n : Int)
  | float (mantissa : Int) (exponent : Int)
  | str (s : List Nat)
  | list (elems : List PyValue)
  | tuple (elems : List PyValue)
  | set (elems : List PyValue)

/-! ## Network Health Monitor: bandwidth-limit handling

`xpra/server/source/networkstate.py` (the `bandwidth-limit` packet
handler) is not among the supplied sources; only its unit test is. -/

structure BandwidthState where
  /-- The stored effective bandwidth-limit setting (bytes per second). -/
  bandwidth_limit : Nat
  deriving Repr, DecidableEq

/-- Modelled from the spec: the Network Health Monitor's
`bandwidth-limit` packet handler (`xpra/server/source/networkstate.py`
is missing from the sources).  It validates that the requested value is
a non-negative integer, failing with a **TypeError**-class validation
error — returned alongside the unchanged state, since a validation error
never tears down the session — for any other payload; an accepted
request `r` sets the effective limit to `min r cap`, where `cap` is the
process-wide maximum. -/
def handle_bandwidth_limit (cap : Nat) (st : BandwidthState) (payload : PyValue) :
    BandwidthState × Option String :=
  match payload with
  | .int n =>
    if n < 0 then (st, some "TypeError")
    else ({ st with bandwidth_limit := min n.toNat cap }, Option.none)
  | _ => (st, some "TypeError")

/-! ## Subprocess Bridge callee

`xpra/net/subprocess_wrapper.py` is not among the supplied sources; only
its unit test is.  The wrapped object is abstract: a state of type `σ`
together with a method-call semantics `call state name args`. -/

/-- Modelled from the spec: the state of a Subprocess Bridge callee
(`subprocess_callee` in the missing `xpra/net/subprocess_wrapper.py`):
a whitelist of exportable method names, the wrapped object, the trace of
method invocations performed on it, and the log of dropped packets. -/
structure CalleeSession (σ : Type) where
  method_whitelist : List String
  wrapped_object : σ
  invocations : List (String × List PyValue)
  log : List String

/-- Modelled from the spec: the callee's packet dispatcher.  A packet
whose name is in the whitelist invokes the wrapped object's method of
that name with the packet's arguments (recorded in the invocation
trace); any other packet is dropped and logged, never invoked. -/
def callee_process_packet {σ : Type} (call : σ → String → List PyValue → σ)
    (s : CalleeSession σ) (name : String) (args : List PyValue) :
    CalleeSession σ :=
  if name ∈ s.method_whitelist then
    { s with
      wrapped_object := call s.wrapped_object name args
      invocations := s.invocations ++ [(name, args)] }
  else
    { s with log := s.log ++ [name] }

/-- A callee session after receiving a sequence of packets. -/
def callee_run {σ : Type} (call : σ → String → List PyValue → σ)
    (s : CalleeSession σ) (packets : List (String × List PyValue)) :
    CalleeSession σ :=
  packets.foldl (fun st p => callee_process_packet call st p.1 p.2) s

/-! ## Packet Protocol Engine over a loopback Connection

The engine (`xpra/net/protocol/socket_handler.py`), the `rencodeplus`
serializer and the `none` compressor are not among the supplied sources;
only the loopback unit test is.  The whole pipeline is modelled from the
spec: serialize, (not) compress, frame into chunks bounded by the shared
chunk-join threshold, write to the loopback Connection's queue; the read
side parses chunk headers, reassembles, decodes and dispatches. -/

/-- A packet handed to the engine: a type-tag name and byte-string
arguments (the shapes exercised by the loopback test). -/
structure EnginePacket where
  name : List Nat
  args : List (List Nat)
  deriving Repr, DecidableEq

/-- Big-endian unsigned 32-bit field. -/
def u32be (n : Nat) : List Nat :=
  [n / 16777216 % 256, n / 65536 % 256, n / 256 % 256, n % 256]

def parse_u32 : List Nat → Option (Nat × List Nat)
  | b0 :: b1 :: b2 :: b3 :: rest =>
    some (b0 * 16777216 + b1 * 65536 + b2 * 256 + b3, rest)
  | _ => Option.none

/-- Modelled from the spec: the negotiated serializer (`rencodeplus` in
the test; its codec module is missing from the sources).  The spec fixes
only that it is a structured-object encoder whose decode inverts encode;
it is modelled as a length-prefixed encoding of the packet's name and
byte-string arguments. -/
def encodePacket (p : EnginePacket) : List Nat :=
  u32be p.name.length ++ p.name ++ u32be p.args.length ++
    (p.args.map fun a => u32be a.length ++ a).flatten

def decode_bstr (b : List Nat) : Option (List Nat × List Nat) :=
  match parse_u32 b with
  | Option.none => Option.none
  | some (n, rest) =>
    if n ≤ rest.length then some (rest.take n, rest.drop n) else Option.none

def decode_args : Nat → List Nat → Option (List (List Nat) × List Nat)
  | 0, b => some ([], b)
  | k + 1, b =>
    match decode_bstr b with
    | Option.none => Option.none
    | some (a, rest) =>
      match decode_args k rest with
      | Option.none => Option.none
      | some (as_, rest') => some (a :: as_, rest')

/-- Modelled from the spec: the serializer's decoder; fails
(**FramingError**) on any malformed or incomplete buffer. -/
def decodePacket (b : List Nat) : Option EnginePacket :=
  match decode_bstr b with
  | Option.none => Option.none
  | some (name, r1) =>
    match parse_u32 r1 with
    | Option.none => Option.none
    | some (k, r2) =>
      match decode_args k r2 with
      | Option.none => Option.none
      | some (args, r3) =>
        if r3.isEmpty then some ⟨name, args⟩ else Option.none

/-- A chunked-frame header plus payload, per the spec's Chunked Frame
data model: chunk index, a more-chunks flag, a per-chunk compression
flag, the payload length and the payload bytes. -/
structure FrameChunk where
  index : Nat
  more : Bool
  compressed : Bool
  payload : List Nat
  deriving Repr, DecidableEq

/-- Modelled from the spec: the engine's wire framing of one chunk:
flag byte for `more`, flag byte for `compressed`, chunk index and
payload length as unsigned 32-bit big-endian fields, then the payload. -/
def chunk_to_bytes (c : FrameChunk) : List Nat :=
  [if c.more then 1 else 0, if c.compressed then 1 else 0] ++
    u32be c.index ++ u32be c.payload.length ++ c.payload

def chunk_of_bytes (b : List Nat) : Option FrameChunk :=
  match b with
  | m :: cf :: rest =>
    match parse_u32 rest with
    | Option.none => Option.none
    | some (idx, rest2) =>
      match parse_u32 rest2 with
      | Option.none => Option.none
      | some (len, payload) =>
        if payload.length = len then
          some ⟨idx, m = 1, cf = 1, payload⟩
        else
          Option.none
  | _ => Option.none

/-- Modelled from the spec: splitting a serialized payload into chunks
no larger than the shared chunk-join threshold, indexed in order, every
chunk but the last carrying the more-chunks flag (the `none` compressor
leaves every chunk uncompressed). -/
def make_chunks (payload : List Nat) : List FrameChunk :=
  let pieces := payload.toChunks PACKET_JOIN_SIZE
  pieces.enum.map fun pi =>
    ⟨pi.1, pi.1 + 1 < pieces.length, false, pi.2⟩

/-- Lifecycle of the loopback session. -/
inductive SessionLifecycle where
  | active
  | stopped
  deriving Repr, DecidableEq

/-- Modelled from the spec: one engine instance bound to the loopback
Connection of the unit test.  The Connection's queue holds the byte
buffers written and not yet read back; `partial_frames` is the read
side's reassembly buffer; `delivered` the packets dispatched to the
registered callback; `timeout_pending` whether the test's watchdog
timeout is still scheduled; `framing_error` whether a fatal framing
failure occurred. -/
structure LoopbackSession where
  queue : List (List Nat)
  partial_frames : List (List Nat)
  delivered : List EnginePacket
  state : SessionLifecycle
  timeout_pending : Bool
  framing_error : Bool
  deriving Repr, DecidableEq

/-- Modelled from the spec: `send(packet)` while active serializes the
packet, frames it into chunks and writes them to the Connection. -/
def session_send (s : LoopbackSession) (p : EnginePacket) : LoopbackSession :=
  if s.state = .active then
    { s with queue := s.queue ++ (make_chunks (encodePacket p)).map chunk_to_bytes }
  else
    s

/-- Modelled from the spec: the test harness's packet handler — an
`end` packet (name code points `[101, 110, 100]`) terminates the
session cleanly and cancels the pending watchdog timeout; every other
packet is delivered to the recording callback. -/
def session_dispatch (s : LoopbackSession) (p : EnginePacket) : LoopbackSession :=
  if p.name = [101, 110, 100] then
    { s with state := .stopped, timeout_pending := false }
  else
    { s with delivered := s.delivered ++ [p] }

/-- Modelled from the spec: one iteration of the read loop — read one
buffer from the Connection, parse the chunk header, buffer the payload;
on a final chunk, reassemble in index order, decode and dispatch; any
parse or decode failure is a fatal **FramingError**. -/
def session_step (s : LoopbackSession) : LoopbackSession :=
  match s.queue with
  | [] => s
  | buf :: rest =>
    let s := { s with queue := rest }
    match chunk_of_bytes buf with
    | Option.none => { s with state := .stopped, framing_error := true }
    | some c =>
      if c.more then
        { s with partial_frames := s.partial_frames ++ [c.payload] }
      else
        match decodePacket ((s.partial_frames ++ [c.payload]).flatten) with
        | Option.none =>
          { s with state := .stopped, framing_error := true, partial_frames := [] }
        | some p => session_dispatch { s with partial_frames := [] } p

/-- Run the read loop for a bounded number of iterations. -/
def session_run (s : LoopbackSession) : Nat → LoopbackSession
  | 0 => s
  | n + 1 => session_run (session_step s) n

/-- The test packet `("foo", b"hello foo")`. -/
def fooPacket : EnginePacket :=
  ⟨[102, 111, 111], [[104, 101, 108, 108, 111, 32, 102, 111, 111]]⟩

/-- The test packet `("end",)`. -/
def endPacket : EnginePacket :=
  ⟨[101, 110, 100], []⟩

/-- The freshly started loopback session: empty Connection queue, the
watchdog timeout scheduled. -/
def initialSession : LoopbackSession :=
  ⟨[], [], [], .active, true, false⟩

/-! ## Helper lemmas -/

theorem or_128_eq_add (m : Nat) (hm : m < 128) : 128 ||| m = 128 + m := by
  revert m
  decide

theorem and_127_eq_mod (n : Nat) : n &&& 127 = n % 128 :=
  Nat.and_pow_two_sub_one_eq_mod n 7

theorem shiftRight_7_eq_div (n : Nat) : n >>> 7 = n / 128 :=
  Nat.shiftRight_eq_div_pow n 7

theorem shiftRight_14_eq_div (n : Nat) : n >>> 14 = n / 16384 :=
  Nat.shiftRight_eq_div_pow n 14

theorem latin1Encode_latin1Decode (b : List (Fin 256)) :
    latin1Encode (latin1Decode b) = some b := by
  induction b with
  | nil => rfl
  | cons a t ih =>
    simp only [latin1Decode, List.map_cons] at ih ⊢
    rw [latin1Encode, dif_pos a.isLt, ih]
    rfl

theorem latin1Encode_of_lt (s : List Nat) (hs : ∀ c ∈ s, c < 256) :
    ∃ b, latin1Encode s = some b ∧ latin1Decode b = s := by
  induction s with
  | nil => exact ⟨[], rfl, rfl⟩
  | cons a t ih =>
    obtain ⟨b, hb, hdec⟩ := ih fun c hc => hs c (List.mem_cons_of_mem _ hc)
    have ha : a < 256 := hs a (List.mem_cons_self a t)
    refine ⟨⟨a, ha⟩ :: b, ?_, ?_⟩
    · rw [latin1Encode, dif_pos ha, hb]
      rfl
    · simp only [latin1Decode, List.map_cons] at hdec ⊢
      rw [hdec]

theorem replaceChar_of_not_mem (c : Nat) (r : List Nat) (s : List Nat)
    (h : ∀ a ∈ s, a ≠ c) : replaceChar c r s = s := by
  induction s with
  | nil => rfl
  | cons a t ih =>
    simp only [replaceChar, List.map_cons, List.flatten_cons] at ih ⊢
    rw [if_neg (h a (List.mem_cons_self a t)),
      ih fun a ha => h a (List.mem_cons_of_mem _ ha)]
    rfl

theorem nonl_of_clean (x : List Nat) (h : ∀ a ∈ x, a ≠ 10 ∧ a ≠ 13) :
    nonl x = x := by
  rw [nonl]
  split_ifs with he
  · exact (List.isEmpty_iff.mp he).symm
  · rw [replaceChar_of_not_mem 10 _ x fun a ha => (h a ha).1,
      replaceChar_of_not_mem 13 _ x fun a ha => (h a ha).2]

/-! ## Claim theorems: C5, C6 -/

/-- C5 (counterexample): the claim says the frame header opens with the
update count and has "nothing else before the update count"; the source's
`make_header` emits a message-type byte and a padding byte (both 0) before
the 16-bit update count, so at the concrete rectangle (1,2,3,4) with
encoding 0 the emitted header differs from the claimed layout. -/
theorem make_header_ne_claimed_layout :
    make_header 0 1 2 3 4 ≠ claimed_header_C5 0 1 2 3 4 := by
  decide

/-- C5 (amended): for every in-range rectangle and encoding id, the
emitted frame header is exactly: a message-type byte 0 and a padding byte
0, then the update count 1 as an unsigned 16-bit big-endian field, then
x, y, w, h each as unsigned 16-bit big-endian fields, then the encoding
id as a signed 32-bit big-endian integer — and nothing else. -/
theorem make_header_layout (encoding : Int) (x y w h : Nat)
    (hx : x < 65536) (hy : y < 65536) (hw : w < 65536) (hh : h < 65536) :
    make_header encoding x y w h =
      [0, 0] ++ [0, 1] ++
      [x / 256, x % 256] ++ [y / 256, y % 256] ++
      [w / 256, w % 256] ++ [h / 256, h % 256] ++ i32be encoding ∧
    (make_header encoding x y w h).length = 16 := by
  have hx' : x / 256 % 256 = x / 256 := Nat.mod_eq_of_lt (by omega)
  have hy' : y / 256 % 256 = y / 256 := Nat.mod_eq_of_lt (by omega)
  have hw' : w / 256 % 256 = w / 256 := Nat.mod_eq_of_lt (by omega)
  have hh' : h / 256 % 256 = h / 256 := Nat.mod_eq_of_lt (by omega)
  refine ⟨?_, ?_⟩
  · simp [make_header, pack_BBH, pack_HHHHi, u16be, hx', hy', hw', hh']
  · simp [make_header, pack_BBH, pack_HHHHi, u16be, i32be]

theorem make_header_layout_witness :
    1 < 65536 ∧
    make_header 7 1 2 3 4 =
      [0, 0] ++ [0, 1] ++
      [1 / 256, 1 % 256] ++ [2 / 256, 2 % 256] ++
      [3 / 256, 3 % 256] ++ [4 / 256, 4 % 256] ++ i32be 7 ∧
    (make_header 7 1 2 3 4).length = 16 :=
  ⟨by decide,
   (make_header_layout 7 1 2 3 4 (by decide) (by decide) (by decide) (by decide)).1,
   (make_header_layout 7 1 2 3 4 (by decide) (by decide) (by decide) (by decide)).2⟩

/-- C6: the TIGHT payload-length prefix is bit-exactly one byte `L` for
`L < 128`; two bytes `[0x80 ||| (L &&& 0x7F), L >>> 7]` for
`128 ≤ L < 16383`; three bytes
`[0x80 ||| (L &&& 0x7F), 0x80 ||| ((L >>> 7) &&& 0x7F), L >>> 14]` for
larger `L` up to `4194302`; and the encoder fails fast (the `assert`,
modelled as `none`) for any larger `L`. -/
theorem tight_length_field_spec (L : Nat) :
    (L < 128 → tight_length_field L = some [L]) ∧
    (128 ≤ L → L < 16383 →
      tight_length_field L = some [0x80 ||| (L &&& 0x7F), L >>> 7]) ∧
    (16383 ≤ L → L ≤ 4194302 →
      tight_length_field L =
        some [0x80 ||| (L &&& 0x7F), 0x80 ||| ((L >>> 7) &&& 0x7F), L >>> 14]) ∧
    (4194302 < L → tight_length_field L = none) := by
  have hmod : L &&& 0x7F = L % 128 := and_127_eq_mod L
  have hmod7 : (L >>> 7) &&& 0x7F = L / 128 % 128 := by
    rw [shiftRight_7_eq_div, and_127_eq_mod]
  refine ⟨?_, ?_, ?_, ?_⟩
  · intro h1
    simp [tight_length_field, h1]
  · intro h1 h2
    rw [tight_length_field, if_neg (by omega), if_pos h2,
      hmod, or_128_eq_add _ (by omega)]
  · intro h1 h2
    rw [tight_length_field, if_neg (by omega), if_neg (by omega),
      if_pos (by omega), hmod, hmod7,
      or_128_eq_add (L % 128) (by omega), or_128_eq_add (L / 128 % 128) (by omega)]
  · intro h1
    rw [tight_length_field, if_neg (by omega), if_neg (by omega), if_neg (by omega)]

/-- C7: whenever the window yields an image for the rectangle and (after
the conditional re-stride to `w*4`) its pixel buffer holds at least
`4*w*h` bytes — the checked precondition — `raw_encode` truncates the
pixels to exactly `4*w*h` bytes and returns one combined chunk
(header concatenated with the pixel bytes) when the pixel data length is
at most the shared chunk-join threshold, and otherwise exactly two
chunks: the header and the uncopied pixel data. -/
theorem raw_encode_spec (window : WindowModel) (x y w h : Nat)
    (img img' : ImageModel)
    (himg : window.get_image x y w h = some img)
    (hfix : img' = if img.rowstride ≠ w * 4 then img.restride (w * 4) else img)
    (hlen : 4 * w * h ≤ img'.pixels.length) :
    (img'.pixels.take (4 * w * h)).length = 4 * w * h ∧
    raw_encode window x y w h =
      (acknowledge_changes window,
       if (img'.pixels.take (4 * w * h)).length ≤ PACKET_JOIN_SIZE then
         .chunks [make_header RFBEncoding_RAW x y w h ++ img'.pixels.take (4 * w * h)]
       else
         .chunks [make_header RFBEncoding_RAW x y w h, img'.pixels.take (4 * w * h)]) := by
  subst hfix
  have htake : ((if img.rowstride ≠ w * 4 then img.restride (w * 4) else img).pixels.take
      (4 * w * h)).length = 4 * w * h := by
    rw [List.length_take]
    omega
  refine ⟨htake, ?_⟩
  rw [raw_encode, himg]
  simp only [if_pos hlen]
  split_ifs <;> rfl

theorem raw_encode_spec_witness :
    ∃ window : WindowModel, ∃ img : ImageModel,
    window.get_image 0 0 1 1 = some img ∧
    raw_encode window 0 0 1 1 =
      (acknowledge_changes window,
       .chunks [make_header RFBEncoding_RAW 0 0 1 1 ++ [9, 9, 9, 9]]) := by
  refine ⟨⟨fun _ _ _ _ => some ⟨4, [9, 9, 9, 9]⟩, false⟩, ⟨4, [9, 9, 9, 9]⟩, rfl, ?_⟩
  have h := raw_encode_spec ⟨fun _ _ _ _ => some ⟨4, [9, 9, 9, 9]⟩, false⟩ 0 0 1 1
    ⟨4, [9, 9, 9, 9]⟩ ⟨4, [9, 9, 9, 9]⟩ rfl (by decide) (by decide)
  rw [h.2]
  rfl

/-- C9: when the window yields no image for the requested rectangle, both
legacy rect encoders return no chunk list (`noImage`, Python `None`)
while still acknowledging the window's pending changes first; and a chunk
list is returned only when an image was obtained. -/
theorem encode_no_image_spec (jpeg : ImageModel → List Nat)
    (window : WindowModel) (x y w h : Nat) :
    (window.get_image x y w h = none →
      raw_encode window x y w h = (acknowledge_changes window, .noImage) ∧
      tight_encode jpeg window x y w h = (acknowledge_changes window, .noImage)) ∧
    (∀ cs, (raw_encode window x y w h).2 = .chunks cs →
      ∃ img, window.get_image x y w h = some img) ∧
    (∀ cs, (tight_encode jpeg window x y w h).2 = .chunks cs →
      ∃ img, window.get_image x y w h = some img) := by
  refine ⟨?_, ?_, ?_⟩
  · intro hnone
    rw [raw_encode, tight_encode, hnone]
    exact ⟨rfl, rfl⟩
  · intro cs hcs
    cases himg : window.get_image x y w h with
    | none => rw [raw_encode, himg] at hcs; cases hcs
    | some img => exact ⟨img, rfl⟩
  · intro cs hcs
    cases himg : window.get_image x y w h with
    | none => rw [tight_encode, himg] at hcs; cases hcs
    | some img => exact ⟨img, rfl⟩

theorem encode_no_image_spec_witness :
    raw_encode ⟨fun _ _ _ _ => none, false⟩ 0 0 5 5 =
      (acknowledge_changes ⟨fun _ _ _ _ => none, false⟩, .noImage) ∧
    tight_encode (fun _ => []) ⟨fun _ _ _ _ => none, false⟩ 0 0 5 5 =
      (acknowledge_changes ⟨fun _ _ _ _ => none, false⟩, .noImage) :=
  (encode_no_image_spec (fun _ => []) ⟨fun _ _ _ _ => none, false⟩ 0 0 5 5).1 rfl

theorem tight_length_field_spec_witness :
    (tight_length_field 100 = some [100]) ∧
    (tight_length_field 200 = some [0x80 ||| (200 &&& 0x7F), 200 >>> 7]) ∧
    (tight_length_field 20000 =
      some [0x80 ||| (20000 &&& 0x7F), 0x80 ||| ((20000 >>> 7) &&& 0x7F), 20000 >>> 14]) ∧
    (tight_length_field 4194303 = none) :=
  ⟨(tight_length_field_spec 100).1 (by decide),
   (tight_length_field_spec 200).2.1 (by decide) (by decide),
   (tight_length_field_spec 20000).2.2.1 (by decide) (by decide),
   (tight_length_field_spec 4194303).2.2.2 (by decide)⟩

/-- C8: byte/string round trips — for every byte string `b`,
`strtobytes (bytestostr b) = b`; and for every text string `s` all of
whose code points are below 256, `bytestostr (strtobytes s) = s`. -/
theorem strtobytes_bytestostr_roundtrip :
    (∀ b : List (Fin 256), strtobytes (bytestostr b) = b) ∧
    (∀ s : List Nat, (∀ c ∈ s, c < 256) → bytestostr (strtobytes s) = s) := by
  constructor
  · intro b
    rw [strtobytes, bytestostr, latin1Encode_latin1Decode]
  · intro s hs
    obtain ⟨b, hb, hdec⟩ := latin1Encode_of_lt s hs
    rw [strtobytes, hb, bytestostr, hdec]

theorem strtobytes_bytestostr_roundtrip_witness :
    strtobytes (bytestostr [104, 105, 255]) = [104, 105, 255] ∧
    bytestostr (strtobytes [104, 105, 255]) = [104, 105, 255] :=
  ⟨strtobytes_bytestostr_roundtrip.1 [104, 105, 255],
   strtobytes_bytestostr_roundtrip.2 [104, 105, 255] (by decide)⟩

/-- C10: for every text string without newline or carriage-return
characters and every `limit` with `len(obj) > limit > 6`,
`repr_ellipsized obj limit` is the first `limit/2 - 2` and last
`limit/2 - 2` characters of `obj` joined by `" .. "`, hence of length
exactly `2*(limit/2)` and never more than `limit`; and whenever
`len(obj) ≤ limit` the string is returned with newlines escaped
(`nonl`) but otherwise unchanged. -/
theorem repr_ellipsized_spec (obj : List Nat) (limit : Nat)
    (hclean : ∀ c ∈ obj, c ≠ 10 ∧ c ≠ 13) :
    (obj.length > limit → limit > 6 →
      repr_ellipsized obj limit =
        obj.take (limit / 2 - 2) ++ [32, 46, 46, 32] ++
          obj.drop (obj.length - (limit / 2 - 2)) ∧
      (repr_ellipsized obj limit).length = 2 * (limit / 2) ∧
      (repr_ellipsized obj limit).length ≤ limit) ∧
    (obj.length ≤ limit → repr_ellipsized obj limit = nonl obj) := by
  constructor
  · intro h1 h2
    have hslice : pySliceFrom obj (2 - (limit : Int) / 2) =
        obj.drop (obj.length - (limit / 2 - 2)) := by
      rw [pySliceFrom, if_neg (by omega)]
      congr 1
      omega
    have heq : repr_ellipsized obj limit =
        obj.take (limit / 2 - 2) ++ [32, 46, 46, 32] ++
          obj.drop (obj.length - (limit / 2 - 2)) := by
      rw [repr_ellipsized, if_pos ⟨h1, h2⟩, hslice]
      apply nonl_of_clean
      intro a ha
      rcases List.mem_append.mp ha with ha' | ha'
      · rcases List.mem_append.mp ha' with ha'' | ha''
        · exact hclean a (List.take_subset _ _ ha'')
        · simp only [List.mem_cons, List.not_mem_nil, or_false] at ha''
          omega
      · exact hclean a (List.drop_subset _ _ ha')
    have hlen : (repr_ellipsized obj limit).length = 2 * (limit / 2) := by
      rw [heq]
      simp only [List.length_append, List.length_take, List.length_drop,
        List.length_cons, List.length_nil]
      omega
    exact ⟨heq, hlen, by omega⟩
  · intro hle
    have hc : ¬(obj.length > limit ∧ limit > 6) := by omega
    rw [repr_ellipsized, if_neg hc]

theorem repr_ellipsized_spec_witness :
    (repr_ellipsized [97, 98, 99, 100, 101, 102, 103, 104] 7 =
      [97, 98, 99, 100, 101, 102, 103, 104].take (7 / 2 - 2) ++ [32, 46, 46, 32] ++
        [97, 98, 99, 100, 101, 102, 103, 104].drop
          ([97, 98, 99, 100, 101, 102, 103, 104].length - (7 / 2 - 2)) ∧
     (repr_ellipsized [97, 98, 99, 100, 101, 102, 103, 104] 7).length = 2 * (7 / 2) ∧
     (repr_ellipsized [97, 98, 99, 100, 101, 102, 103, 104] 7).length ≤ 7) ∧
    repr_ellipsized [97, 98] 7 = nonl [97, 98] :=
  ⟨(repr_ellipsized_spec [97, 98, 99, 100, 101, 102, 103, 104] 7 (by decide)).1
      (by decide) (by decide),
   (repr_ellipsized_spec [97, 98] 7 (by decide)).2 (by decide)⟩

/-- C3: every `bandwidth-limit` payload that is not a non-negative
integer — in particular None, a string, a float, a list, a tuple, a
set — makes the handler fail with the TypeError-class validation error
and leaves the stored effective setting unchanged (the returned state is
exactly the old state); a non-negative integer payload is accepted
(no error, so the session continues). -/
theorem bandwidth_limit_validation (cap : Nat) (st : BandwidthState) :
    (∀ payload : PyValue, (∀ n : Int, payload ≠ .int n) →
      handle_bandwidth_limit cap st payload = (st, some "TypeError")) ∧
    (∀ n : Int, n < 0 →
      handle_bandwidth_limit cap st (.int n) = (st, some "TypeError")) ∧
    (∀ n : Int, 0 ≤ n →
      (handle_bandwidth_limit cap st (.int n)).2 = Option.none) := by
  refine ⟨?_, ?_, ?_⟩
  · intro payload hni
    cases payload with
    | int n => exact absurd rfl (hni n)
    | none => rfl
    | float m e => rfl
    | str s => rfl
    | list l => rfl
    | tuple l => rfl
    | set l => rfl
  · intro n hn
    rw [handle_bandwidth_limit, if_pos hn]
  · intro n hn
    rw [handle_bandwidth_limit, if_neg (by omega)]

theorem bandwidth_limit_validation_witness :
    (handle_bandwidth_limit 1000000000 ⟨500⟩ .none = (⟨500⟩, some "TypeError")) ∧
    (handle_bandwidth_limit 1000000000 ⟨500⟩ (.str [102]) = (⟨500⟩, some "TypeError")) ∧
    (handle_bandwidth_limit 1000000000 ⟨500⟩ (.float 2 0) = (⟨500⟩, some "TypeError")) ∧
    (handle_bandwidth_limit 1000000000 ⟨500⟩ (.list []) = (⟨500⟩, some "TypeError")) ∧
    (handle_bandwidth_limit 1000000000 ⟨500⟩ (.tuple []) = (⟨500⟩, some "TypeError")) ∧
    (handle_bandwidth_limit 1000000000 ⟨500⟩ (.set []) = (⟨500⟩, some "TypeError")) ∧
    (handle_bandwidth_limit 1000000000 ⟨500⟩ (.int (-7)) = (⟨500⟩, some "TypeError")) ∧
    ((handle_bandwidth_limit 1000000000 ⟨500⟩ (.int 10485760)).2 = Option.none) :=
  ⟨(bandwidth_limit_validation 1000000000 ⟨500⟩).1 .none nofun,
   (bandwidth_limit_validation 1000000000 ⟨500⟩).1 (.str [102]) nofun,
   (bandwidth_limit_validation 1000000000 ⟨500⟩).1 (.float 2 0) nofun,
   (bandwidth_limit_validation 1000000000 ⟨500⟩).1 (.list []) nofun,
   (bandwidth_limit_validation 1000000000 ⟨500⟩).1 (.tuple []) nofun,
   (bandwidth_limit_validation 1000000000 ⟨500⟩).1 (.set []) nofun,
   (bandwidth_limit_validation 1000000000 ⟨500⟩).2.1 (-7) (by decide),
   (bandwidth_limit_validation 1000000000 ⟨500⟩).2.2 10485760 (by decide)⟩

/-- C4: for every accepted `bandwidth-limit` request `r` (a non-negative
integer) and process-wide cap `cap`, the resulting effective bandwidth
limit is exactly `min r cap`; it never exceeds the process-wide maximum,
and a request at or above the cap yields the cap itself. -/
theorem bandwidth_limit_cap (cap : Nat) (st : BandwidthState) (r : Int)
    (hr : 0 ≤ r) :
    (handle_bandwidth_limit cap st (.int r)).1.bandwidth_limit = min r.toNat cap ∧
    (handle_bandwidth_limit cap st (.int r)).1.bandwidth_limit ≤ cap ∧
    (cap ≤ r.toNat →
      (handle_bandwidth_limit cap st (.int r)).1.bandwidth_limit = cap) := by
  rw [handle_bandwidth_limit, if_neg (by omega)]
  refine ⟨rfl, Nat.min_le_right _ _, fun hge => ?_⟩
  simpa using Nat.min_eq_right hge

theorem bandwidth_limit_cap_witness :
    ((handle_bandwidth_limit 1000000000 ⟨0⟩ (.int 10485760)).1.bandwidth_limit =
        min (Int.toNat 10485760) 1000000000 ∧
      (handle_bandwidth_limit 1000000000 ⟨0⟩ (.int 10485760)).1.bandwidth_limit ≤
        1000000000) ∧
    (handle_bandwidth_limit 1000000000 ⟨0⟩ (.int 2000000000)).1.bandwidth_limit =
      1000000000 :=
  ⟨⟨(bandwidth_limit_cap 1000000000 ⟨0⟩ 10485760 (by decide)).1,
    (bandwidth_limit_cap 1000000000 ⟨0⟩ 10485760 (by decide)).2.1⟩,
   (bandwidth_limit_cap 1000000000 ⟨0⟩ 2000000000 (by decide)).2.2 (by decide)⟩

theorem callee_run_method_whitelist {σ : Type}
    (call : σ → String → List PyValue → σ) (s : CalleeSession σ)
    (packets : List (String × List PyValue)) :
    (callee_run call s packets).method_whitelist = s.method_whitelist := by
  induction packets generalizing s with
  | nil => rfl
  | cons p ps ih =>
    simp only [callee_run, List.foldl_cons] at ih ⊢
    rw [ih]
    rw [callee_process_packet]
    split_ifs <;> rfl

/-- C1: the callee invokes the wrapped object's method exactly for
whitelisted packet names — a whitelisted packet performs the method call
with the packet's arguments and records it; a non-whitelisted packet is
dropped (logged only), leaving the wrapped object and the invocation
trace untouched; and in every state reachable by processing any packet
sequence, every recorded invocation names a whitelisted method. -/
theorem callee_whitelist_enforcement {σ : Type}
    (call : σ → String → List PyValue → σ) :
    (∀ (s : CalleeSession σ) (name : String) (args : List PyValue),
      name ∈ s.method_whitelist →
        callee_process_packet call s name args =
          { s with
            wrapped_object := call s.wrapped_object name args
            invocations := s.invocations ++ [(name, args)] }) ∧
    (∀ (s : CalleeSession σ) (name : String) (args : List PyValue),
      name ∉ s.method_whitelist →
        (callee_process_packet call s name args).wrapped_object = s.wrapped_object ∧
        (callee_process_packet call s name args).invocations = s.invocations ∧
        (callee_process_packet call s name args).log = s.log ++ [name]) ∧
    (∀ (s : CalleeSession σ) (packets : List (String × List PyValue)),
      (∀ q ∈ s.invocations, q.1 ∈ s.method_whitelist) →
        ∀ q ∈ (callee_run call s packets).invocations,
          q.1 ∈ s.method_whitelist) := by
  refine ⟨?_, ?_, ?_⟩
  · intro s name args hmem
    rw [callee_process_packet, if_pos hmem]
  · intro s name args hmem
    rw [callee_process_packet, if_neg hmem]
    exact ⟨rfl, rfl, rfl⟩
  · intro s packets
    induction packets generalizing s with
    | nil => exact fun hinv q hq => hinv q hq
    | cons p ps ih =>
      intro hinv q hq
      simp only [callee_run, List.foldl_cons] at hq
      have hwl : (callee_process_packet call s p.1 p.2).method_whitelist =
          s.method_whitelist := by
        rw [callee_process_packet]
        split_ifs <;> rfl
      have hstep : ∀ q ∈ (callee_process_packet call s p.1 p.2).invocations,
          q.1 ∈ (callee_process_packet call s p.1 p.2).method_whitelist := by
        rw [callee_process_packet]
        split_ifs with hmem
        · intro q hq'
          rcases List.mem_append.mp hq' with h' | h'
          · exact hinv q h'
          · rcases List.mem_singleton.mp h' with rfl
            exact hmem
        · exact hinv
      have := ih (callee_process_packet call s p.1 p.2) hstep q hq
      rwa [hwl] at this

theorem callee_whitelist_enforcement_witness :
    (callee_process_packet (σ := Nat) (fun st _ _ => st + 1)
        ⟨["test_signal", "loop_stop"], 0, [], []⟩ "test_signal" [.int 3] =
      ⟨["test_signal", "loop_stop"], 1, [("test_signal", [.int 3])], []⟩) ∧
    ((callee_process_packet (σ := Nat) (fun st _ _ => st + 1)
        ⟨["test_signal", "loop_stop"], 0, [], []⟩ "unused_method" []).wrapped_object = 0 ∧
     (callee_process_packet (σ := Nat) (fun st _ _ => st + 1)
        ⟨["test_signal", "loop_stop"], 0, [], []⟩ "unused_method" []).invocations = [] ∧
     (callee_process_packet (σ := Nat) (fun st _ _ => st + 1)
        ⟨["test_signal", "loop_stop"], 0, [], []⟩ "unused_method" []).log =
       [] ++ ["unused_method"]) :=
  ⟨(callee_whitelist_enforcement (σ := Nat) (fun st _ _ => st + 1)).1
      ⟨["test_signal", "loop_stop"], 0, [], []⟩ "test_signal" [.int 3] (by decide),
   (callee_whitelist_enforcement (σ := Nat) (fun st _ _ => st + 1)).2.1
      ⟨["test_signal", "loop_stop"], 0, [], []⟩ "unused_method" [] (by decide)⟩

/-- C2: sending `("foo", b"hello foo")` through the loopback session
(serializer round-trip identity on this packet) and reading it back
delivers exactly that packet with its payload equal to the bytes sent;
subsequently sending `("end",)` terminates the session cleanly — final
state stopped with no framing error — with no pending timeout left to
fire. -/
theorem loopback_roundtrip_end_clean :
    decodePacket (encodePacket fooPacket) = some fooPacket ∧
    session_run (session_send (session_send initialSession fooPacket) endPacket) 2 =
      ⟨[], [], [fooPacket], .stopped, false, false⟩ := by
  decide

end Xpra
